import Mathlib

/-!
Verification of the ShellDeck application logic: the tab lifecycle,
host connect/save operations, the host-editor form handlers and the
sidebar search/grouping, shallowly embedded from the TypeScript source
(`App.tsx`, `HostEditor.tsx`, `Sidebar.tsx`, `types.ts`).
-/

set_option maxHeartbeats 1000000

namespace ShellDeck

/-- `HostStatus` from `types.ts`: `'idle' | 'connected' | 'error'`. -/
inductive HostStatus where
  | idle
  | connected
  | error
  deriving DecidableEq, Repr

/-- `Host` from `types.ts`.  Optional TypeScript fields (`groupId?`,
`tags?`, `identityFile?`, `extraArgs?`) are `Option`s, with `none`
standing for JavaScript `undefined`.  `port` is an `Int`: it is produced
by `parseInt`, which can yield negative values. -/
structure Host where
  id : String
  name : String
  hostname : String
  user : String
  port : Int
  groupId : Option String
  status : HostStatus
  tags : Option (List String)
  identityFile : Option String
  extraArgs : Option String
  deriving DecidableEq, Repr

/-- `Group` from `types.ts`. -/
structure Group where
  id : String
  name : String
  isExpanded : Bool
  deriving DecidableEq, Repr

/-- `Tab` from `types.ts`. -/
structure Tab where
  id : String
  hostId : String
  isActive : Bool
  deriving DecidableEq, Repr

/-- The tab-list part of `handleConnect` in `App.tsx`.  The id that the
source generates as `` `t${Date.now()}` `` is passed in as `newId`. -/
def handleConnectTabs (hostId newId : String) (tabs : List Tab) : List Tab :=
  match tabs.find? (fun t => t.hostId == hostId) with
  | some existingTab => tabs.map (fun t => { t with isActive := t.id == existingTab.id })
  | none =>
      tabs.map (fun t => { t with isActive := false })
        ++ [{ id := newId, hostId := hostId, isActive := true }]

/-- The host-list part of `handleConnect` in `App.tsx`:
`hosts.map(h => h.id === hostId ? { ...h, status: 'connected' } : h)`. -/
def connectHosts (hostId : String) (hosts : List Host) : List Host :=
  hosts.map (fun h => if h.id == hostId then { h with status := HostStatus.connected } else h)

/-- The in-place mutation `newTabs[newTabs.length - 1].isActive = true`
of `handleCloseTab`: set the last tab of the list active. -/
def setLastActive : List Tab → List Tab
  | [] => []
  | [t] => [{ t with isActive := true }]
  | t :: u :: ts => t :: setLastActive (u :: ts)

/-- JavaScript `tabs.find(...)?.isActive` used as a truthiness test:
`undefined` is falsy. -/
def optIsActive : Option Tab → Bool
  | none => false
  | some t => t.isActive

/-- `handleCloseTab` from `App.tsx`: `newTabs` is
`tabs.filter(t => t.id !== tabId)`; when it is non-empty and the closed
tab was active, its last element is made active. -/
def handleCloseTab (tabId : String) (tabs : List Tab) : List Tab :=
  if 0 < (tabs.filter (fun t => t.id != tabId)).length ∧
      optIsActive (tabs.find? (fun t => t.id == tabId)) = true then
    setLastActive (tabs.filter (fun t => t.id != tabId))
  else
    tabs.filter (fun t => t.id != tabId)

/-- `handleSelectTab` from `App.tsx`. -/
def handleSelectTab (tabId : String) (tabs : List Tab) : List Tab :=
  tabs.map (fun t => { t with isActive := t.id == tabId })

/-- The root component state relevant to the mutation handlers of
`App.tsx`. -/
structure AppState where
  hosts : List Host
  tabs : List Tab
  isEditorOpen : Bool
  editingHost : Option Host
  deriving DecidableEq, Repr

/-- `handleConnect` from `App.tsx`, acting on the root state. -/
def handleConnect (hostId newId : String) (s : AppState) : AppState :=
  { s with
      tabs := handleConnectTabs hostId newId s.tabs,
      hosts := connectHosts hostId s.hosts }

/-- `handleSaveHost` from `App.tsx`.  The id that the source generates
as `` `h${Date.now()}` `` for the create branch is passed in as
`newId`. -/
def handleSaveHost (host : Host) (newId : String) (s : AppState) : AppState :=
  { s with
      hosts :=
        match s.editingHost with
        | some _ => s.hosts.map (fun h => if h.id == host.id then host else h)
        | none => s.hosts ++ [{ host with id := newId, status := HostStatus.idle }],
      isEditorOpen := false }

/-- The traces of the tab list obtainable from the empty list by the
three tab mutations of `App.tsx`.  `connect` carries the generated tab
id as an explicit fresh argument (the source produces it from
`Date.now()`); `select` only fires from the tab strip, whose rows are
exactly the open tabs, so its argument is an open tab's id. -/
inductive ReachableTabs : List Tab → Prop
  | init : ReachableTabs []
  | connect (hostId newId : String) (tabs : List Tab) (h : ReachableTabs tabs)
      (hfresh : newId ∉ tabs.map Tab.id) :
      ReachableTabs (handleConnectTabs hostId newId tabs)
  | close (tabId : String) (tabs : List Tab) (h : ReachableTabs tabs) :
      ReachableTabs (handleCloseTab tabId tabs)
  | select (tabId : String) (tabs : List Tab) (h : ReachableTabs tabs)
      (hmem : tabId ∈ tabs.map Tab.id) :
      ReachableTabs (handleSelectTab tabId tabs)

/-- The `HostEditor` form state (`useState<Partial<Host>>`): optional
TypeScript fields, and the fields absent in create mode (`id`,
`status`), are `Option`s. -/
structure FormData where
  id : Option String
  name : String
  hostname : String
  user : String
  port : Int
  groupId : Option String
  status : Option HostStatus
  tags : Option (List String)
  identityFile : Option String
  extraArgs : Option String
  deriving DecidableEq, Repr

/-- The `formData as Host` cast in `HostEditor.handleSubmit`.  The `id`
and `status` fields are only ever read on paths that have them (`id` on
the edit path, where the form was initialised from a real `Host`;
`status` never before `handleSaveHost` overwrites it on the create
path), so the defaults chosen for `none` are unobservable. -/
def formToHost (f : FormData) : Host :=
  { id := f.id.getD "",
    name := f.name,
    hostname := f.hostname,
    user := f.user,
    port := f.port,
    groupId := f.groupId,
    status := f.status.getD HostStatus.idle,
    tags := f.tags,
    identityFile := f.identityFile,
    extraArgs := f.extraArgs }

/-- `HostEditor.handleSubmit`: `if (!formData.name || !formData.hostname)
return; onSave(formData as Host)`.  The result is the argument passed to
`onSave`, or `none` when the submission is swallowed. -/
def hostEditorSubmit (f : FormData) : Option Host :=
  if f.name == "" || f.hostname == "" then none
  else some (formToHost f)

/-- Form submission composed with the root's save handler: when
`handleSubmit` returns early nothing is invoked and the root state is
untouched (in particular the editor-open flag keeps its value). -/
def submitForm (f : FormData) (newId : String) (s : AppState) : AppState :=
  match hostEditorSubmit f with
  | none => s
  | some h => handleSaveHost h newId s

/-- Value of a decimal digit character, `none` otherwise. -/
def decDigitVal (c : Char) : Option Nat :=
  if '0' ≤ c ∧ c ≤ '9' then some (c.toNat - '0'.toNat) else none

/-- Value of a hexadecimal digit character, `none` otherwise. -/
def hexDigitVal (c : Char) : Option Nat :=
  if '0' ≤ c ∧ c ≤ '9' then some (c.toNat - '0'.toNat)
  else if 'a' ≤ c ∧ c ≤ 'f' then some (c.toNat - 'a'.toNat + 10)
  else if 'A' ≤ c ∧ c ≤ 'F' then some (c.toNat - 'A'.toNat + 10)
  else none

/-- Accumulate the longest leading run of digits; `none` when no digit
was consumed at all. -/
def parseDigits (dv : Char → Option Nat) (radix : Nat) : List Char → Option Nat → Option Nat
  | [], acc => acc
  | c :: cs, acc =>
    match dv c with
    | some d => parseDigits dv radix cs (some (acc.getD 0 * radix + d))
    | none => acc

/-- JavaScript `parseInt(value)` with no radix argument: skip leading
whitespace, read an optional sign, switch to base 16 after a `0x`/`0X`
prefix, then take the longest run of digits, ignoring the rest of the
string.  `none` is `NaN`. -/
def jsParseInt (s : String) : Option Int :=
  let cs := s.data.dropWhile Char.isWhitespace
  let signed : Int × List Char :=
    match cs with
    | '-' :: rest => (-1, rest)
    | '+' :: rest => (1, rest)
    | _ => (1, cs)
  let body : (Char → Option Nat) × Nat × List Char :=
    match signed.2 with
    | '0' :: 'x' :: rest => (hexDigitVal, 16, rest)
    | '0' :: 'X' :: rest => (hexDigitVal, 16, rest)
    | rest => (decDigitVal, 10, rest)
  (parseDigits body.1 body.2.1 body.2.2 none).map (fun n => signed.1 * (n : Int))

/-- The port branch of `HostEditor.handleChange`:
`parseInt(value) || 22`.  `NaN` and `0` are falsy, everything else
(including negative numbers) passes through. -/
def portFromInput (value : String) : Int :=
  match jsParseInt value with
  | none => 22
  | some v => if v = 0 then 22 else v

/-- `HostEditor.handleChange` applied to the Port field. -/
def portOnChange (f : FormData) (value : String) : FormData :=
  { f with port := portFromInput value }

/-- JavaScript `String.prototype.trim` on a character list. -/
def jsTrim (cs : List Char) : List Char :=
  ((cs.dropWhile Char.isWhitespace).reverse.dropWhile Char.isWhitespace).reverse

/-- JavaScript `value.split(',')`: every comma is a separator and empty
segments are kept, so the result is always non-empty. -/
def jsSplitComma : List Char → List (List Char)
  | [] => [[]]
  | c :: cs =>
    if c == ',' then [] :: jsSplitComma cs
    else
      match jsSplitComma cs with
      | [] => [[c]]
      | w :: ws => (c :: w) :: ws

/-- The tags `onChange` computation of `HostEditor.tsx`:
`e.target.value.split(',').map(t => t.trim()).filter(Boolean)`. -/
def parseTags (value : String) : List String :=
  (((jsSplitComma value.data).map jsTrim).map (fun cs : List Char => String.mk cs)).filter
    (fun t => t != "")

/-- The tags `onChange` handler of `HostEditor.tsx`:
`setFormData({...formData, tags: ...})`. -/
def tagsOnChange (f : FormData) (value : String) : FormData :=
  { f with tags := some (parseTags value) }

/-- `s.toLowerCase()` as a character list (ASCII case folding). -/
def lowerStr (s : String) : List Char :=
  s.data.map Char.toLower

/-- Does the first list start with the second? -/
def strStartsWith : List Char → List Char → Bool
  | _, [] => true
  | [], _ :: _ => false
  | c :: cs, d :: ds => c == d && strStartsWith cs ds

/-- JavaScript `hay.includes(needle)`: contiguous substring test. -/
def strIncludes : List Char → List Char → Bool
  | [], needle => strStartsWith [] needle
  | c :: cs, needle => strStartsWith (c :: cs) needle || strIncludes cs needle

/-- The filter predicate of `filteredHosts` in `Sidebar.tsx`: name,
hostname, or some tag contains the query, case-insensitively
(`h.tags?.some(...)` is falsy when `tags` is `undefined`). -/
def hostMatches (query : String) (h : Host) : Bool :=
  strIncludes (lowerStr h.name) (lowerStr query) ||
  strIncludes (lowerStr h.hostname) (lowerStr query) ||
  (h.tags.getD []).any (fun t => strIncludes (lowerStr t) (lowerStr query))

/-- `filteredHosts` from `Sidebar.tsx`. -/
def filteredHosts (query : String) (hosts : List Host) : List Host :=
  hosts.filter (fun h => hostMatches query h)

/-- JavaScript truthiness of `h.groupId` negated: `!h.groupId` holds for
`undefined` and for the empty string. -/
def groupIdFalsy : Option String → Bool
  | none => true
  | some s => s == ""

/-- The hosts rendered under one group row in browse mode: the members
(`h.groupId === group.id`) when the group is expanded, nothing when it
is collapsed. -/
def groupSection (hosts : List Host) (g : Group) : List Host :=
  if g.isExpanded then hosts.filter (fun h => h.groupId == some g.id) else []

/-- The trailing ungrouped section of the sidebar tree:
`hosts.filter(h => !h.groupId)`. -/
def ungroupedSection (hosts : List Host) : List Host :=
  hosts.filter (fun h => groupIdFalsy h.groupId)

/-- All hosts rendered by the browse-mode (empty query) tree of
`Sidebar.tsx`, in render order. -/
def browseList (groups : List Group) (hosts : List Host) : List Host :=
  ((groups.map (groupSection hosts)).flatten) ++ ungroupedSection hosts

/-- The hosts the sidebar body displays: the flat filtered list when the
query is truthy (non-empty), the grouped tree otherwise. -/
def sidebarVisibleHosts (query : String) (groups : List Group) (hosts : List Host) :
    List Host :=
  if query == "" then browseList groups hosts else filteredHosts query hosts

/-- `INITIAL_GROUPS` from `App.tsx`. -/
def INITIAL_GROUPS : List Group :=
  [{ id := "g1", name := "Production", isExpanded := true },
   { id := "g2", name := "Staging", isExpanded := true },
   { id := "g3", name := "Lab", isExpanded := false }]

/-- `INITIAL_HOSTS` from `App.tsx`; fields absent from a literal are
`none` (`undefined`). -/
def INITIAL_HOSTS : List Host :=
  [{ id := "h1", name := "web-prod-01", hostname := "10.0.1.10", user := "deploy",
     port := 22, groupId := some "g1", status := HostStatus.connected,
     tags := none, identityFile := none, extraArgs := none },
   { id := "h2", name := "db-prod-01", hostname := "10.0.1.20", user := "admin",
     port := 2222, groupId := some "g1", status := HostStatus.idle,
     tags := none, identityFile := none, extraArgs := none },
   { id := "h3", name := "web-stage-01", hostname := "10.0.2.10", user := "deploy",
     port := 22, groupId := some "g2", status := HostStatus.idle,
     tags := none, identityFile := none, extraArgs := none },
   { id := "h4", name := "labvm01", hostname := "192.168.1.100", user := "root",
     port := 22, groupId := some "g3", status := HostStatus.error,
     tags := none, identityFile := none, extraArgs := none },
   { id := "h5", name := "router-home", hostname := "192.168.0.1", user := "admin",
     port := 22, groupId := none, status := HostStatus.idle,
     tags := none, identityFile := none, extraArgs := none }]

/-- The `router-home` seed host (the ungrouped one, `h5`). -/
def routerHomeHost : Host :=
  { id := "h5", name := "router-home", hostname := "192.168.0.1", user := "admin",
    port := 22, groupId := none, status := HostStatus.idle,
    tags := none, identityFile := none, extraArgs := none }

/-- A host carrying a `"lab"` tag, as in the spec's search example. -/
def labTagHost : Host :=
  { id := "h6", name := "edge-01", hostname := "10.0.3.5", user := "root",
    port := 22, groupId := none, status := HostStatus.idle,
    tags := some ["lab", "edge"], identityFile := none, extraArgs := none }

/-- A host saved through the editor with the group selector on "None":
`HostEditor` initialises `groupId: ''`, so the stored `groupId` is the
empty string, not `undefined`. -/
def emptyGroupIdHost : Host :=
  { id := "h7", name := "orphan", hostname := "10.9.9.9", user := "root",
    port := 22, groupId := some "", status := HostStatus.idle,
    tags := none, identityFile := none, extraArgs := none }

/-- The create-mode form defaults of `HostEditor.tsx`. -/
def sampleForm : FormData :=
  { id := none, name := "", hostname := "", user := "root", port := 22,
    groupId := some "", status := none, tags := some [],
    identityFile := some "", extraArgs := some "" }

/-- A root state with the seed data and the editor open in create mode. -/
def seededState : AppState :=
  { hosts := INITIAL_HOSTS, tabs := [{ id := "t1", hostId := "h1", isActive := true }],
    isEditorOpen := true, editingHost := none }

/-- The single seeded tab of `App.tsx`. -/
def tab1 : Tab := { id := "t1", hostId := "h1", isActive := true }

/-- The worked example of the close-tab rule in the spec. -/
def closeExample : List Tab :=
  [{ id := "t1", hostId := "h1", isActive := false },
   { id := "t2", hostId := "h2", isActive := true },
   { id := "t3", hostId := "h3", isActive := false }]

/-- A host record as handed to `onSave` from a filled create-mode form. -/
def newHostData : Host :=
  { id := "", name := "edge-01", hostname := "10.0.3.5", user := "root",
    port := 22, groupId := none, status := HostStatus.idle,
    tags := some [], identityFile := some "", extraArgs := some "" }

/-- The invariant maintained by the tab mutations: open tabs have
pairwise distinct ids, and the list is empty or has exactly one active
tab. -/
def TabsInvariant (tabs : List Tab) : Prop :=
  (tabs.map Tab.id).Nodup ∧ (tabs = [] ∨ tabs.countP (fun t => t.isActive) = 1)

theorem handleConnectTabs_eq_some (hostId newId : String) (tabs : List Tab) (e : Tab)
    (hfind : tabs.find? (fun t => t.hostId == hostId) = some e) :
    handleConnectTabs hostId newId tabs
      = tabs.map (fun t => { t with isActive := t.id == e.id }) := by
  unfold handleConnectTabs
  rw [hfind]

theorem handleConnectTabs_eq_none (hostId newId : String) (tabs : List Tab)
    (hfind : tabs.find? (fun t => t.hostId == hostId) = none) :
    handleConnectTabs hostId newId tabs
      = tabs.map (fun t => { t with isActive := false })
          ++ [{ id := newId, hostId := hostId, isActive := true }] := by
  unfold handleConnectTabs
  rw [hfind]

theorem countP_isActive_map_set (tabs : List Tab) (f : Tab → Bool) :
    (tabs.map (fun t => { t with isActive := f t })).countP (fun t => t.isActive)
      = tabs.countP f := by
  rw [List.countP_map]
  rfl

theorem map_id_map_set (tabs : List Tab) (f : Tab → Bool) :
    (tabs.map (fun t => { t with isActive := f t })).map Tab.id = tabs.map Tab.id := by
  rw [List.map_map]
  rfl

theorem countP_id_eq_one (tabs : List Tab) (i : String)
    (hnd : (tabs.map Tab.id).Nodup) (hmem : i ∈ tabs.map Tab.id) :
    tabs.countP (fun t => t.id == i) = 1 := by
  induction tabs with
  | nil => simp at hmem
  | cons t ts ih =>
    simp only [List.map_cons, List.nodup_cons] at hnd
    simp only [List.map_cons, List.mem_cons] at hmem
    rw [List.countP_cons]
    rcases hmem with h | h
    · have hz : ts.countP (fun u => u.id == i) = 0 := by
        rw [List.countP_eq_zero]
        intro u hu
        simp only [beq_iff_eq]
        intro he
        apply hnd.1
        rw [← h, ← he]
        exact List.mem_map_of_mem Tab.id hu
      rw [hz]
      simp [h]
    · have hne : ¬ t.id = i := fun he => hnd.1 (by rw [he]; exact h)
      rw [ih hnd.2 h]
      simp [hne]

theorem setLastActive_map_id : ∀ tabs : List Tab,
    (setLastActive tabs).map Tab.id = tabs.map Tab.id
  | [] => rfl
  | [_] => rfl
  | t :: u :: ts => by
    show t.id :: (setLastActive (u :: ts)).map Tab.id = t.id :: (u :: ts).map Tab.id
    rw [setLastActive_map_id (u :: ts)]

theorem setLastActive_countP : ∀ tabs : List Tab, tabs ≠ [] →
    tabs.countP (fun t => t.isActive) = 0 →
    (setLastActive tabs).countP (fun t => t.isActive) = 1
  | [], h, _ => absurd rfl h
  | [t], _, h0 => by
    simp only [setLastActive]
    simp [List.countP_cons]
  | t :: u :: ts, _, h0 => by
    by_cases ht : (fun v : Tab => v.isActive) t = true
    · rw [List.countP_cons_of_pos _ _ ht] at h0
      omega
    · rw [List.countP_cons_of_neg _ _ ht] at h0
      show (t :: setLastActive (u :: ts)).countP (fun v => v.isActive) = 1
      rw [List.countP_cons_of_neg _ _ ht]
      exact setLastActive_countP (u :: ts) (by simp) h0

theorem setLastActive_eq : ∀ (tabs : List Tab) (h : tabs ≠ []),
    setLastActive tabs = tabs.dropLast ++ [{ tabs.getLast h with isActive := true }]
  | [], h => absurd rfl h
  | [_], _ => rfl
  | t :: u :: ts, _ => by
    show t :: setLastActive (u :: ts)
        = (t :: u :: ts).dropLast
            ++ [{ (t :: u :: ts).getLast (by simp) with isActive := true }]
    rw [setLastActive_eq (u :: ts) (by simp), List.dropLast_cons₂,
      List.getLast_cons (by simp : u :: ts ≠ [])]
    rfl

theorem find?_append_cons (p : Tab → Bool) : ∀ (l₁ : List Tab) (t : Tab) (l₂ : List Tab),
    (∀ u ∈ l₁, p u = false) → p t = true →
    (l₁ ++ t :: l₂).find? p = some t
  | [], t, l₂, _, hpt => List.find?_cons_of_pos l₂ hpt
  | u :: l₁, t, l₂, hl, hpt => by
    have hu : p u = false := hl u (by simp)
    show ((u :: (l₁ ++ t :: l₂)).find? p) = some t
    rw [List.find?_cons_of_neg _ (by simp [hu])]
    exact find?_append_cons p l₁ t l₂ (fun v hv => hl v (by simp [hv])) hpt

theorem filter_decompose (p : Tab → Bool) (l₁ : List Tab) (t : Tab) (l₂ : List Tab)
    (h₁ : ∀ u ∈ l₁, p u = true) (h₂ : ∀ u ∈ l₂, p u = true) (ht : p t = false) :
    (l₁ ++ t :: l₂).filter p = l₁ ++ l₂ := by
  rw [List.filter_append, List.filter_cons_of_neg (by simp [ht]),
    List.filter_eq_self.mpr h₁, List.filter_eq_self.mpr h₂]

theorem exists_split_of_mem_map_id (tabs : List Tab) (i : String)
    (hmem : i ∈ tabs.map Tab.id) :
    ∃ l₁ t l₂, tabs = l₁ ++ t :: l₂ ∧ t.id = i := by
  rcases List.mem_map.mp hmem with ⟨t, ht, hid⟩
  rcases List.append_of_mem ht with ⟨l₁, l₂, rfl⟩
  exact ⟨l₁, t, l₂, rfl, hid⟩

theorem nodup_middle_facts (l₁ : List Tab) (t : Tab) (l₂ : List Tab)
    (hnd : ((l₁ ++ t :: l₂).map Tab.id).Nodup) :
    (∀ u ∈ l₁, u.id ≠ t.id) ∧ (∀ u ∈ l₂, u.id ≠ t.id) ∧
      ((l₁ ++ l₂).map Tab.id).Nodup := by
  rw [List.map_append, List.map_cons] at hnd
  have h := List.nodup_middle.mp hnd
  rw [List.nodup_cons] at h
  refine ⟨?_, ?_, ?_⟩
  · intro u hu he
    exact h.1 (by rw [← he]; exact List.mem_append_left _ (List.mem_map_of_mem Tab.id hu))
  · intro u hu he
    exact h.1 (by rw [← he]; exact List.mem_append_right _ (List.mem_map_of_mem Tab.id hu))
  · rw [List.map_append]
    exact h.2

theorem handleCloseTab_eq (tabId : String) (l₁ : List Tab) (t : Tab) (l₂ : List Tab)
    (hid : t.id = tabId)
    (h₁ : ∀ u ∈ l₁, u.id ≠ tabId) (h₂ : ∀ u ∈ l₂, u.id ≠ tabId) :
    handleCloseTab tabId (l₁ ++ t :: l₂)
      = if t.isActive = true ∧ l₁ ++ l₂ ≠ [] then setLastActive (l₁ ++ l₂)
        else l₁ ++ l₂ := by
  unfold handleCloseTab
  have hfilter : (l₁ ++ t :: l₂).filter (fun u => u.id != tabId) = l₁ ++ l₂ :=
    filter_decompose _ l₁ t l₂ (by intro u hu; simpa using h₁ u hu)
      (by intro u hu; simpa using h₂ u hu) (by simp [hid])
  have hfind : (l₁ ++ t :: l₂).find? (fun u => u.id == tabId) = some t :=
    find?_append_cons _ l₁ t l₂ (by intro u hu; simpa using h₁ u hu) (by simp [hid])
  rw [hfilter, hfind]
  by_cases hc : t.isActive = true ∧ l₁ ++ l₂ ≠ []
  · rw [if_pos ⟨List.length_pos.mpr hc.2, by simp [optIsActive, hc.1]⟩, if_pos hc]
  · rw [if_neg, if_neg hc]
    intro hcon
    exact hc ⟨by simpa [optIsActive] using hcon.2, List.length_pos.mp hcon.1⟩

theorem handleCloseTab_not_mem (tabId : String) (tabs : List Tab)
    (h : ∀ u ∈ tabs, u.id ≠ tabId) :
    handleCloseTab tabId tabs = tabs := by
  unfold handleCloseTab
  have hfind : tabs.find? (fun u => u.id == tabId) = none := by
    rw [List.find?_eq_none]
    intro u hu
    simpa using h u hu
  have hfilter : tabs.filter (fun u => u.id != tabId) = tabs :=
    List.filter_eq_self.mpr (by intro u hu; simpa using h u hu)
  rw [hfind, hfilter]
  simp [optIsActive]

theorem inv_connect (hostId newId : String) (tabs : List Tab)
    (hinv : TabsInvariant tabs) (hfresh : newId ∉ tabs.map Tab.id) :
    TabsInvariant (handleConnectTabs hostId newId tabs) := by
  cases hfind : tabs.find? (fun t => t.hostId == hostId) with
  | some e =>
    rw [handleConnectTabs_eq_some hostId newId tabs e hfind]
    constructor
    · rw [map_id_map_set]
      exact hinv.1
    · right
      rw [countP_isActive_map_set]
      exact countP_id_eq_one tabs e.id hinv.1
        (List.mem_map_of_mem Tab.id (List.mem_of_find?_eq_some hfind))
  | none =>
    rw [handleConnectTabs_eq_none hostId newId tabs hfind]
    constructor
    · rw [List.map_append, map_id_map_set]
      rw [List.nodup_append]
      exact ⟨hinv.1, List.nodup_singleton newId, by
        intro a ha hb
        simp only [List.map_cons, List.map_nil, List.mem_singleton] at hb
        exact hfresh (hb ▸ ha)⟩
    · right
      rw [List.countP_append, countP_isActive_map_set]
      simp [List.countP_cons]

theorem inv_select (tabId : String) (tabs : List Tab)
    (hinv : TabsInvariant tabs) (hmem : tabId ∈ tabs.map Tab.id) :
    TabsInvariant (handleSelectTab tabId tabs) := by
  unfold handleSelectTab
  constructor
  · rw [map_id_map_set]
    exact hinv.1
  · right
    rw [countP_isActive_map_set]
    exact countP_id_eq_one tabs tabId hinv.1 hmem

theorem inv_close (tabId : String) (tabs : List Tab)
    (hinv : TabsInvariant tabs) :
    TabsInvariant (handleCloseTab tabId tabs) := by
  by_cases hmem : tabId ∈ tabs.map Tab.id
  case neg =>
    rw [handleCloseTab_not_mem tabId tabs
      (fun u hu he => hmem (he ▸ List.mem_map_of_mem Tab.id hu))]
    exact hinv
  case pos =>
    obtain ⟨l₁, t, l₂, rfl, hid⟩ := exists_split_of_mem_map_id tabs tabId hmem
    obtain ⟨h₁, h₂, hnd'⟩ := nodup_middle_facts l₁ t l₂ hinv.1
    have hcount : (l₁ ++ t :: l₂).countP (fun v => v.isActive) = 1 := by
      rcases hinv.2 with h | h
      · exact absurd h (by simp)
      · exact h
    rw [List.countP_append, List.countP_cons] at hcount
    rw [handleCloseTab_eq tabId l₁ t l₂ hid (fun u hu => hid ▸ h₁ u hu)
      (fun u hu => hid ▸ h₂ u hu)]
    by_cases hc : t.isActive = true ∧ l₁ ++ l₂ ≠ []
    · rw [if_pos hc]
      constructor
      · rw [setLastActive_map_id]
        exact hnd'
      · right
        apply setLastActive_countP (l₁ ++ l₂) hc.2
        rw [List.countP_append]
        simp only [hc.1, if_pos] at hcount
        omega
    · rw [if_neg hc]
      constructor
      · exact hnd'
      · by_cases ht : t.isActive = true
        · left
          by_contra hne
          exact hc ⟨ht, hne⟩
        · right
          rw [List.countP_append]
          simp [ht] at hcount
          omega

theorem tabsInvariant_of_reachable {tabs : List Tab} (h : ReachableTabs tabs) :
    TabsInvariant tabs := by
  induction h with
  | init => exact ⟨List.nodup_nil, Or.inl rfl⟩
  | connect hostId newId tabs h hfresh ih => exact inv_connect hostId newId tabs ih hfresh
  | close tabId tabs h ih => exact inv_close tabId tabs ih
  | select tabId tabs h hmem ih => exact inv_select tabId tabs ih hmem

/-- Claim C1 is false as stated: with arbitrary `tabId` arguments,
`handleSelectTab` applied to an id carried by no open tab deactivates
every tab, leaving a non-empty tab list with zero active tabs.
Concretely, starting from the empty list, `connect("h1")` (generated tab
id `"t1"`) followed by `selectTab("t2")` leaves one open tab and no
active tab. -/
theorem single_active_tab_counterexample :
    handleSelectTab "t2" (handleConnectTabs "h1" "t1" []) ≠ [] ∧
    (handleSelectTab "t2" (handleConnectTabs "h1" "t1" [])).countP
      (fun t => t.isActive) = 0 := by
  exact ⟨by decide, by decide⟩

/-- Claim C1 (amended): for any sequence of `connect`, `closeTab` and
`selectTab` calls starting from the empty tab list — `closeTab` with an
arbitrary argument, `connect` with an arbitrary host id and a fresh
generated tab id, and `selectTab` with the id of a currently open tab,
as the tab strip supplies — after each call either the tab list is
empty or exactly one tab has `isActive = true`.  `selectTab` with an id
no open tab carries instead deactivates every tab. -/
theorem single_active_tab (tabs : List Tab) (h : ReachableTabs tabs) :
    tabs = [] ∨ tabs.countP (fun t => t.isActive) = 1 :=
  (tabsInvariant_of_reachable h).2

theorem single_active_tab_witness :
    handleCloseTab "t2" (handleSelectTab "t1"
        (handleConnectTabs "h2" "t2" (handleConnectTabs "h1" "t1" []))) = []
      ∨ (handleCloseTab "t2" (handleSelectTab "t1"
          (handleConnectTabs "h2" "t2" (handleConnectTabs "h1" "t1" [])))).countP
          (fun t => t.isActive) = 1 :=
  single_active_tab _
    (ReachableTabs.close "t2" _
      (ReachableTabs.select "t1" _
        (ReachableTabs.connect "h2" "t2" _
          (ReachableTabs.connect "h1" "t1" [] ReachableTabs.init (by decide))
          (by decide))
        (by decide)))

/-- Claim C2: on a tab list with pairwise distinct ids, if some tab
already targets `hostId` then `connect(hostId)` keeps the list length,
leaves exactly one active tab, and the active ones are exactly those
with the found tab's id; otherwise it deactivates every existing tab
and appends a new active tab for `hostId` with the generated id.  In
both cases the host list is mapped so that the host whose id is
`hostId` gets `status = connected` and every other host is unchanged. -/
theorem connect_spec (hostId newId : String) (hosts : List Host) (tabs : List Tab)
    (hnd : (tabs.map Tab.id).Nodup) :
    (∀ e, tabs.find? (fun t => t.hostId == hostId) = some e →
      (handleConnectTabs hostId newId tabs).length = tabs.length ∧
      (handleConnectTabs hostId newId tabs).countP (fun t => t.isActive) = 1 ∧
      (∀ u ∈ handleConnectTabs hostId newId tabs, (u.isActive = true ↔ u.id = e.id))) ∧
    (tabs.find? (fun t => t.hostId == hostId) = none →
      handleConnectTabs hostId newId tabs
        = tabs.map (fun t => { t with isActive := false })
            ++ [{ id := newId, hostId := hostId, isActive := true }]) ∧
    (connectHosts hostId hosts).length = hosts.length ∧
    (∀ i : Nat, (connectHosts hostId hosts)[i]?
      = (hosts[i]?).map
          (fun h => if h.id = hostId then { h with status := HostStatus.connected } else h)) := by
  refine ⟨?_, ?_, ?_, ?_⟩
  · intro e hfind
    rw [handleConnectTabs_eq_some hostId newId tabs e hfind]
    refine ⟨by simp, ?_, ?_⟩
    · rw [countP_isActive_map_set]
      exact countP_id_eq_one tabs e.id hnd
        (List.mem_map_of_mem Tab.id (List.mem_of_find?_eq_some hfind))
    · intro u hu
      rcases List.mem_map.mp hu with ⟨t, _, rfl⟩
      simp
  · intro hfind
    exact handleConnectTabs_eq_none hostId newId tabs hfind
  · simp [connectHosts]
  · intro i
    unfold connectHosts
    rw [List.getElem?_map]
    cases hx : hosts[i]? with
    | none => rfl
    | some h => by_cases hh : h.id = hostId <;> simp [hh]

theorem connect_spec_witness :
    handleConnectTabs "h2" "t9" [tab1]
      = [{ tab1 with isActive := false }, { id := "t9", hostId := "h2", isActive := true }] ∧
    (connectHosts "h2" INITIAL_HOSTS).length = INITIAL_HOSTS.length ∧
    (connectHosts "h2" INITIAL_HOSTS)[1]?
      = (INITIAL_HOSTS[1]?).map
          (fun h => if h.id = "h2" then { h with status := HostStatus.connected } else h) := by
  have h := connect_spec "h2" "t9" INITIAL_HOSTS [tab1] (by decide)
  exact ⟨h.2.1 (by decide), h.2.2.1, h.2.2.2 1⟩

/-- Claim C3: on a tab list with pairwise distinct ids containing
`tabId`, `closeTab(tabId)` removes exactly the tab with that id,
preserving the order of the rest; if the removed tab was inactive the
rest keep their flags; if it was active and the rest is non-empty, only
the last remaining tab's flag changes, to active; if the rest is empty
the result is the empty list. -/
theorem close_tab_spec (tabId : String) (tabs : List Tab)
    (hnd : (tabs.map Tab.id).Nodup) (hmem : tabId ∈ tabs.map Tab.id) :
    ∃ l₁ t l₂, tabs = l₁ ++ t :: l₂ ∧ t.id = tabId ∧
      (∀ u ∈ l₁ ++ l₂, u.id ≠ tabId) ∧
      (t.isActive = false → handleCloseTab tabId tabs = l₁ ++ l₂) ∧
      (t.isActive = true → l₁ ++ l₂ = [] → handleCloseTab tabId tabs = []) ∧
      (t.isActive = true → ∀ hne : l₁ ++ l₂ ≠ [],
        handleCloseTab tabId tabs
          = (l₁ ++ l₂).dropLast
              ++ [{ (l₁ ++ l₂).getLast hne with isActive := true }]) := by
  obtain ⟨l₁, t, l₂, rfl, hid⟩ := exists_split_of_mem_map_id tabs tabId hmem
  obtain ⟨h₁, h₂, _⟩ := nodup_middle_facts l₁ t l₂ hnd
  have hcl := handleCloseTab_eq tabId l₁ t l₂ hid (fun u hu => hid ▸ h₁ u hu)
    (fun u hu => hid ▸ h₂ u hu)
  refine ⟨l₁, t, l₂, rfl, hid, ?_, ?_, ?_, ?_⟩
  · intro u hu
    rcases List.mem_append.mp hu with h | h
    · exact hid ▸ h₁ u h
    · exact hid ▸ h₂ u h
  · intro ht
    rw [hcl, if_neg]
    simp [ht]
  · intro ht hemp
    rw [hcl, if_neg, hemp]
    simp [hemp]
  · intro ht hne
    rw [hcl, if_pos ⟨ht, hne⟩, setLastActive_eq (l₁ ++ l₂) hne]

theorem close_tab_spec_witness :
    (∃ l₁ t l₂, closeExample = l₁ ++ t :: l₂ ∧ t.id = "t2" ∧
      (∀ u ∈ l₁ ++ l₂, u.id ≠ "t2") ∧
      (t.isActive = false → handleCloseTab "t2" closeExample = l₁ ++ l₂) ∧
      (t.isActive = true → l₁ ++ l₂ = [] → handleCloseTab "t2" closeExample = []) ∧
      (t.isActive = true → ∀ hne : l₁ ++ l₂ ≠ [],
        handleCloseTab "t2" closeExample
          = (l₁ ++ l₂).dropLast
              ++ [{ (l₁ ++ l₂).getLast hne with isActive := true }])) ∧
    handleCloseTab "t2" closeExample
      = [{ id := "t1", hostId := "h1", isActive := false },
         { id := "t3", hostId := "h3", isActive := true }] :=
  ⟨close_tab_spec "t2" closeExample (by decide) (by decide), by decide⟩

/-- Claim C4: `saveHost` in edit mode (a host is being edited) rewrites
the host list pointwise, replacing every host whose id equals the saved
record's id and keeping the length and all other hosts; in create mode
(no host being edited) it appends the saved record with the generated
id and `status = idle`, growing the list by one.  The editor-open flag
becomes false and the tabs are untouched in both modes. -/
theorem save_host_spec (host : Host) (newId : String) (s : AppState) :
    (∀ e, s.editingHost = some e →
      (handleSaveHost host newId s).hosts.length = s.hosts.length ∧
      (∀ i : Nat, (handleSaveHost host newId s).hosts[i]?
        = (s.hosts[i]?).map (fun h => if h.id = host.id then host else h))) ∧
    (s.editingHost = none →
      (handleSaveHost host newId s).hosts
        = s.hosts ++ [{ host with id := newId, status := HostStatus.idle }] ∧
      (handleSaveHost host newId s).hosts.length = s.hosts.length + 1) ∧
    (handleSaveHost host newId s).isEditorOpen = false ∧
    (handleSaveHost host newId s).tabs = s.tabs := by
  refine ⟨?_, ?_, rfl, rfl⟩
  · intro e he
    constructor
    · simp only [handleSaveHost, he]
      simp
    · intro i
      simp only [handleSaveHost, he]
      rw [List.getElem?_map]
      cases hx : s.hosts[i]? with
      | none => rfl
      | some h => by_cases hh : h.id = host.id <;> simp [hh]
  · intro he
    refine ⟨?_, ?_⟩
    · simp only [handleSaveHost, he]
    · simp only [handleSaveHost, he]
      simp

theorem save_host_spec_witness :
    (handleSaveHost newHostData "h6" seededState).hosts
      = INITIAL_HOSTS ++ [{ newHostData with id := "h6", status := HostStatus.idle }] ∧
    (handleSaveHost newHostData "h6" seededState).hosts.length
      = INITIAL_HOSTS.length + 1 ∧
    (handleSaveHost newHostData "h6" seededState).isEditorOpen = false := by
  have h := save_host_spec newHostData "h6" seededState
  exact ⟨(h.2.1 rfl).1, (h.2.1 rfl).2, h.2.2.1⟩

/-- Claim C5 is false as stated: the stored port need not be positive.
Entering `"-5"` in the Port field stores `parseInt("-5") || 22 = -5`,
a negative port that survives editing. -/
theorem port_positive_counterexample :
    portFromInput "-5" = -5 ∧ ¬ (0 < portFromInput "-5") := by
  exact ⟨by decide, by decide⟩

/-- Claim C5 (amended): for every string entered in the Port field, the
stored port is a nonzero integer; a value that does not parse as a
number (and a value parsing to `0`) is silently coerced to `22` rather
than rejected, but a string parsing to a negative integer is stored
as-is, so a non-positive port can survive editing. -/
theorem port_coercion (value : String) (f : FormData) :
    portFromInput value ≠ 0 ∧
    (jsParseInt value = none → portFromInput value = 22) ∧
    (portOnChange f value).port = portFromInput value := by
  refine ⟨?_, ?_, rfl⟩
  · unfold portFromInput
    cases h : jsParseInt value with
    | none => simp
    | some v => by_cases hv : v = 0 <;> simp [hv]
  · intro h
    simp [portFromInput, h]

theorem port_coercion_witness :
    portFromInput "abc" = 22 ∧ portFromInput "abc" ≠ 0 :=
  ⟨(port_coercion "abc" sampleForm).2.1 (by decide),
   (port_coercion "abc" sampleForm).1⟩

/-- Claim C6: submitting the host-editor form with an empty `name` or
`hostname` invokes nothing: `handleSubmit` returns before calling
`onSave`, so the root state — in particular the host list and the
editor-open flag — is exactly what it was. -/
theorem empty_submit_noop (f : FormData) (newId : String) (s : AppState)
    (h : f.name = "" ∨ f.hostname = "") :
    hostEditorSubmit f = none ∧
    submitForm f newId s = s ∧
    (submitForm f newId s).hosts = s.hosts ∧
    (submitForm f newId s).isEditorOpen = s.isEditorOpen := by
  have hsub : hostEditorSubmit f = none := by
    unfold hostEditorSubmit
    rcases h with h | h <;> simp [h]
  have hid : submitForm f newId s = s := by
    unfold submitForm
    rw [hsub]
  exact ⟨hsub, hid, by rw [hid], by rw [hid]⟩

theorem empty_submit_noop_witness :
    hostEditorSubmit sampleForm = none ∧
    submitForm sampleForm "h9" seededState = seededState ∧
    (submitForm sampleForm "h9" seededState).hosts = seededState.hosts ∧
    (submitForm sampleForm "h9" seededState).isEditorOpen = seededState.isEditorOpen :=
  empty_submit_noop sampleForm "h9" seededState (Or.inl rfl)

/-- Claim C7: with a non-empty query the sidebar body is the flat
filtered list, independent of the groups and their expansion state, and
a host is in that list exactly when it is in the host list and its
name, hostname, or one of its tags contains the query as a
case-insensitive substring. -/
theorem search_filter_spec (query : String) (groups : List Group)
    (hosts : List Host) (h : Host) (hq : query ≠ "") :
    sidebarVisibleHosts query groups hosts = filteredHosts query hosts ∧
    (h ∈ filteredHosts query hosts ↔ h ∈ hosts ∧ hostMatches query h = true) := by
  constructor
  · unfold sidebarVisibleHosts
    rw [if_neg]
    simp [hq]
  · simp [filteredHosts, List.mem_filter]

theorem search_filter_spec_witness :
    sidebarVisibleHosts "lab" INITIAL_GROUPS (INITIAL_HOSTS ++ [labTagHost])
      = filteredHosts "lab" (INITIAL_HOSTS ++ [labTagHost]) ∧
    labTagHost ∈ filteredHosts "lab" (INITIAL_HOSTS ++ [labTagHost]) := by
  have h := search_filter_spec "lab" INITIAL_GROUPS (INITIAL_HOSTS ++ [labTagHost])
    labTagHost (by decide)
  exact ⟨h.1, h.2.mpr ⟨by decide, by decide⟩⟩

/-- Claim C8 is false as stated: a host whose `groupId` is the empty
string — reachable by saving a host with the group selector on "None",
which the editor initialises to `''` — matches no existing group, yet
it appears in the ungrouped section, because `!h.groupId` is true for
the empty string. -/
theorem dangling_group_counterexample :
    emptyGroupIdHost.groupId = some "" ∧
    (∀ g ∈ INITIAL_GROUPS, g.id ≠ "") ∧
    emptyGroupIdHost ∈ browseList INITIAL_GROUPS (INITIAL_HOSTS ++ [emptyGroupIdHost]) := by
  exact ⟨rfl, by decide, by decide⟩

/-- Claim C8 (amended): in browse mode a host with no `groupId` always
appears in the trailing ungrouped section, whatever the groups'
expansion states; a host whose `groupId` is a non-empty string matching
no existing group appears nowhere; a host whose `groupId` is the empty
string also lands in the ungrouped section. -/
theorem grouping_spec (groups : List Group) (hosts : List Host) (h : Host)
    (hmem : h ∈ hosts) :
    (h.groupId = none →
      h ∈ ungroupedSection hosts ∧
      browseList groups hosts
        = (groups.map (groupSection hosts)).flatten ++ ungroupedSection hosts) ∧
    (∀ gid, h.groupId = some gid → gid ≠ "" → (∀ g ∈ groups, g.id ≠ gid) →
      h ∉ browseList groups hosts) ∧
    (h.groupId = some "" → h ∈ ungroupedSection hosts) := by
  refine ⟨?_, ?_, ?_⟩
  · intro hg
    refine ⟨?_, rfl⟩
    rw [ungroupedSection, List.mem_filter]
    exact ⟨hmem, by simp [groupIdFalsy, hg]⟩
  · intro gid hg hne hgs hcon
    rcases List.mem_append.mp hcon with hin | hin
    · rcases List.mem_flatten.mp hin with ⟨l, hl, hmem'⟩
      rcases List.mem_map.mp hl with ⟨g, hgmem, rfl⟩
      by_cases hex : g.isExpanded = true
      · simp only [groupSection, hex, if_true] at hmem'
        have h2 := List.of_mem_filter hmem'
        simp only [beq_iff_eq] at h2
        rw [hg] at h2
        exact hgs g hgmem (Option.some.inj h2).symm
      · simp [groupSection, hex] at hmem'
    · have h2 := List.of_mem_filter hin
      rw [hg] at h2
      simp only [groupIdFalsy, beq_iff_eq] at h2
      exact hne h2
  · intro hg
    rw [ungroupedSection, List.mem_filter]
    exact ⟨hmem, by simp [groupIdFalsy, hg]⟩

theorem grouping_spec_witness :
    routerHomeHost ∈ ungroupedSection INITIAL_HOSTS ∧
    browseList INITIAL_GROUPS INITIAL_HOSTS
      = (INITIAL_GROUPS.map (groupSection INITIAL_HOSTS)).flatten
          ++ ungroupedSection INITIAL_HOSTS := by
  have h := grouping_spec INITIAL_GROUPS INITIAL_HOSTS routerHomeHost (by decide)
  exact ⟨(h.1 rfl).1, (h.1 rfl).2⟩

/-- Claim C9: the tags `onChange` replaces the form's tags wholesale by
the comma-split, trimmed, empties-dropped segments of the input, in
order, and touches no other field; every stored tag is non-empty, and
on `"prod, web,  linux ,"` the result is exactly
`["prod", "web", "linux"]`. -/
theorem tags_onChange_spec (f : FormData) (value : String) :
    (tagsOnChange f value).tags = some (parseTags value) ∧
    (tagsOnChange f value).name = f.name ∧
    (tagsOnChange f value).hostname = f.hostname ∧
    (tagsOnChange f value).port = f.port ∧
    (∀ t ∈ parseTags value, t ≠ "") ∧
    parseTags "prod, web,  linux ," = ["prod", "web", "linux"] := by
  refine ⟨rfl, rfl, rfl, rfl, ?_, by decide⟩
  intro t ht
  have h2 := List.of_mem_filter ht
  simpa using h2

theorem tags_onChange_spec_witness :
    (tagsOnChange sampleForm "prod, web,  linux ,").tags
      = some ["prod", "web", "linux"] := by
  have h := tags_onChange_spec sampleForm "prod, web,  linux ,"
  rw [h.1, h.2.2.2.2.2]

/-- Claim C10: `connect` does not validate its argument: for a `hostId`
matching no host's id and no open tab's target, it still deactivates
every existing tab and appends a new active tab referencing `hostId`,
while the host list is left completely unchanged. -/
theorem connect_unknown_host (hostId newId : String) (hosts : List Host)
    (tabs : List Tab) (hh : ∀ h ∈ hosts, h.id ≠ hostId)
    (ht : ∀ t ∈ tabs, t.hostId ≠ hostId) :
    connectHosts hostId hosts = hosts ∧
    handleConnectTabs hostId newId tabs
      = tabs.map (fun t => { t with isActive := false })
          ++ [{ id := newId, hostId := hostId, isActive := true }] := by
  constructor
  · unfold connectHosts
    have heq : ∀ h ∈ hosts,
        (if h.id == hostId then { h with status := HostStatus.connected } else h) = h := by
      intro h hm
      simp [hh h hm]
    calc hosts.map (fun h => if h.id == hostId then { h with status := HostStatus.connected } else h)
        = hosts.map id := List.map_congr_left (fun a ha => by simpa using heq a ha)
      _ = hosts := List.map_id hosts
  · apply handleConnectTabs_eq_none
    rw [List.find?_eq_none]
    intro t htm
    simpa using ht t htm

theorem connect_unknown_host_witness :
    connectHosts "hx" INITIAL_HOSTS = INITIAL_HOSTS ∧
    handleConnectTabs "hx" "t9" [tab1]
      = [tab1].map (fun t => { t with isActive := false })
          ++ [{ id := "t9", hostId := "hx", isActive := true }] :=
  connect_unknown_host "hx" "t9" INITIAL_HOSTS [tab1] (by decide) (by decide)

end ShellDeck
